import Mathlib

/-!
Verification of the lfpod feed-to-podcast pipeline (src/lfpod.go) against its
natural-language specification.  Go strings are modelled as lists of
characters; external effects (network, filesystem, child processes) are
modelled as explicit oracles in an `Env` structure, and the sweep
(`doUpdate`) and the feed handler (`feedGetHandler`) are translated into
pure state-passing functions that also record the externally visible
actions (probe, download, transcode, rename, remove) they perform.
-/

/-- Go strings, modelled as lists of characters. -/
abbrev GoStr := List Char

/-- Go `strings.Contains s sub`: `sub` occurs in `s` as a contiguous substring. -/
def containsSub (s sub : GoStr) : Bool := decide (sub <:+: s)

/-- Go `strings.ToLower` (ASCII case folding, which is all the markers and
keywords in this program exercise). -/
def lowerStr (s : GoStr) : GoStr := s.map Char.toLower

/-- Split a character list at every occurrence of `sep` (the separator is
dropped; `n` separators yield `n+1` parts, possibly empty). -/
def splitSep (sep : Char) : List Char → List (List Char)
  | [] => [[]]
  | c :: cs =>
    if c = sep then [] :: splitSep sep cs
    else
      match splitSep sep cs with
      | [] => [[c]]
      | p :: ps => (c :: p) :: ps

/-- The element-processing loop of Go `path/filepath.Clean` on a relative,
slash-separated path: drop empty and `.` elements, let `..` cancel the
preceding element when one is available. `acc` holds the already-kept
elements in reverse order. -/
def cleanFold (acc : List GoStr) : List GoStr → List GoStr
  | [] => acc.reverse
  | p :: ps =>
    if p = ([] : GoStr) ∨ p = ['.'] then cleanFold acc ps
    else if p = ['.', '.'] then
      match acc with
      | [] => cleanFold [p] ps
      | q :: rest => if q = ['.', '.'] then cleanFold (p :: acc) ps else cleanFold rest ps
    else cleanFold (p :: acc) ps

/-- Join path elements with `sep` between consecutive elements. -/
def joinSep (sep : Char) : List GoStr → GoStr
  | [] => []
  | [p] => p
  | p :: ps => p ++ sep :: joinSep sep ps

/-- Go `filepath.Clean` restricted to relative paths, the only inputs this
program produces (every cleaned path here starts with the literal element
`audio`, so the absolute-path and empty-path branches of the Go function are
never reached except for the empty result, which yields `.`). -/
def goClean (p : GoStr) : GoStr :=
  match cleanFold [] (splitSep '/' p) with
  | [] => ['.']
  | q :: qs => joinSep '/' (q :: qs)

/-- `getAudioFileName` from src/lfpod.go: `filepath.Join("audio", channelId,
videoId + "." + format)` with `format = "opus"`.  Since the first element is
non-empty, Go `filepath.Join` is `Clean` of the slash-joined elements. -/
def getAudioFileName (channelId videoId : GoStr) : GoStr :=
  let format : GoStr := "opus".data
  goClean ("audio".data ++ '/' :: (channelId ++ '/' :: (videoId ++ '.' :: format)))

/-- `YtEntry` from src/lfpod.go: one feed entry.  `media` is a pointer in Go
(`*YtMedia`), hence an `Option`; only its description field is ever read. -/
structure YtEntry where
  title : GoStr
  videoId : GoStr
  published : GoStr
  media : Option GoStr
  deriving DecidableEq, Repr

/-- `YtFeed` from src/lfpod.go: the parsed feed document. -/
structure YtFeed where
  entries : List YtEntry
  deriving DecidableEq, Repr

/-- `ConfFeed` from src/lfpod.go: one configured channel.  `keywords` is a Go
slice that may be `nil` (key absent from the JSON, modelled `none`) or
non-nil, possibly empty (`keywords: []` in the JSON, modelled `some []`). -/
structure ConfFeed where
  name : GoStr
  channelId : GoStr
  keywords : Option (List GoStr)
  deriving DecidableEq, Repr

/-- `Conf` from src/lfpod.go. -/
structure Conf where
  feeds : List ConfFeed
  serverAddress : GoStr

/-- The inner keyword loop of `parseFeed` (src/lfpod.go lines 79-85): scan the
keywords in order and stop at the first whose lowercasing occurs in the
lowercased title. -/
def keywordMatchLoop (title : GoStr) : List GoStr → Bool
  | [] => false
  | k :: ks =>
    if containsSub (lowerStr title) (lowerStr k) then true
    else keywordMatchLoop title ks

/-- The outer entry loop of `parseFeed` (src/lfpod.go lines 78-86): append, in
order, each entry whose title matches some keyword. -/
def filterLoop (keywords : List GoStr) : List YtEntry → List YtEntry
  | [] => []
  | e :: es =>
    if keywordMatchLoop e.title keywords then e :: filterLoop keywords es
    else filterLoop keywords es

/-- `parseFeed` from src/lfpod.go given the result of `xml.Unmarshal`: a
failed unmarshal hits `log.Fatal` (modelled as `Except.error`, i.e. process
termination); otherwise a `nil` keyword slice returns the feed unmodified and
a non-nil slice runs the keyword filter. -/
def parseFeedGo (unmarshalled : Except GoStr YtFeed) (keywords : Option (List GoStr)) :
    Except GoStr YtFeed :=
  match unmarshalled with
  | .error e => .error e
  | .ok f =>
    match keywords with
    | none => .ok f
    | some ks => .ok ⟨filterLoop ks f.entries⟩

/-- Outcome of the HTTP GET in `readFeed`: transport failure, or a response
with a status code and a body whose read may itself fail. -/
inductive NetResult where
  | transportError (msg : GoStr)
  | response (status : Nat) (body : Except GoStr GoStr)

/-- The error message `readFeed` builds for a non-success status. -/
def statusErrMsg (status : Nat) : GoStr :=
  "server response status ".data ++ (Nat.repr status).data

/-- `readFeed` from src/lfpod.go, returning the Go pair `(body, err)`.  The
`body, err := ioutil.ReadAll(...)` line shadows the outer `err`, so when the
status is 200 but the body read fails, the function falls through to
`return nil, err` with the OUTER `err`, which is nil: it returns
`(none, none)`. -/
def readFeedGo : NetResult → Option GoStr × Option GoStr
  | .transportError e => (none, some e)
  | .response status body =>
    if status ≠ 200 then (none, some (statusErrMsg status))
    else
      match body with
      | .ok b => (some b, none)
      | .error _ => (none, none)

/-- `isVideoReady` from src/lfpod.go as a function of the probe invocation's
outcome: `none` models `CombinedOutput` returning an error (non-zero exit,
timeout), which yields `false`; otherwise the output must contain one of the
markers `not_live` or `was_live`. -/
def isVideoReady (res : Option GoStr) : Bool :=
  match res with
  | none => false
  | some out => containsSub out "not_live".data || containsSub out "was_live".data

/-- Result of `os.Stat` at a path: success (`err == nil`), not-found, or any
other filesystem error. -/
inductive StatRes where
  | ok
  | notFound
  | otherError
  deriving DecidableEq, Repr

/-- Externally visible actions the sweep performs: readiness probe, download
tool invocation, transcoder invocation, `os.Rename`, `os.Remove`. -/
inductive Act where
  | probe (videoId : GoStr)
  | download (videoId : GoStr)
  | transcode (fileIn fileOut : GoStr)
  | rename (src dst : GoStr)
  | remove (path : GoStr)
  deriving DecidableEq, Repr

/-- Oracles for every external effect of the program: the network (per
channelId), `xml.Unmarshal` (per document), filesystem stat errors other than
not-found (per path), the probe process output (`none` = invocation failure),
download and transcode success (per videoId), `time.Parse` with RFC3339 (per
timestamp string), and `os.Stat` file sizes (per path). -/
structure Env where
  net : GoStr → NetResult
  unmarshal : GoStr → Except GoStr YtFeed
  statErr : GoStr → Bool
  probe : GoStr → Option GoStr
  downloadOk : GoStr → Bool
  recodeOk : GoStr → Bool
  parseTime : GoStr → Option Nat
  fileSize : GoStr → Nat

/-- The filesystem, as the set (list without duplicates) of existing paths. -/
abbrev Fs := List GoStr

/-- `os.Stat` at `p`: the `statErr` oracle injects non-not-found errors;
otherwise success iff the path exists. -/
def statFs (statErr : GoStr → Bool) (fs : Fs) (p : GoStr) : StatRes :=
  if statErr p then .otherError
  else if p ∈ fs then .ok
  else .notFound

/-- Record a path as existing. -/
def insertPath (p : GoStr) (fs : Fs) : Fs :=
  if p ∈ fs then fs else p :: fs

/-- Record a path as removed. -/
def removePath (p : GoStr) (fs : Fs) : Fs :=
  fs.filter (fun q => q ≠ p)

/-- The fixed temporary file name of `recodeAudio` (src/lfpod.go line 122). -/
def tmpName : GoStr := "tmp.opus".data

/-- A fatal `log.Fatal` exit, carrying the message and the actions the sweep
had performed before terminating. -/
abbrev Fatal := GoStr × List Act

/-- The actions performed by a sweep fragment, whether or not it ended in a
fatal exit. -/
def actsOf : Except Fatal (List Act × Fs) → List Act
  | .error (_, as) => as
  | .ok (as, _) => as

/-- The download pipeline an entry enters once the existence check did not
succeed (src/lfpod.go lines 147-162): readiness probe (defer when not ready),
`downloadAudio` (which on failure runs `os.Remove(outFile)` with
`outFile = videoId`), `recodeAudio` (converter writes `tmp.opus`, a failure
is `log.Fatal`; then `os.Rename(tmp.opus, fileDst)`), and finally
`os.Remove(fileDown)` of the downloaded raw audio. -/
def entryPipeline (env : Env) (channelId : GoStr) (fs : Fs) (entry : YtEntry) :
    Except Fatal (List Act × Fs) :=
  let fileDst := getAudioFileName channelId entry.videoId
  if isVideoReady (env.probe entry.videoId) = false then
    .ok ([.probe entry.videoId], fs)
  else
    let fileDown := entry.videoId
    if env.downloadOk entry.videoId then
      if env.recodeOk entry.videoId then
        let fs1 := insertPath fileDown fs
        let fs2 := insertPath tmpName fs1
        let fs3 := insertPath fileDst (removePath tmpName fs2)
        let fs4 := removePath fileDown fs3
        .ok ([.probe entry.videoId, .download entry.videoId,
              .transcode fileDown fileDst, .rename tmpName fileDst,
              .remove fileDown], fs4)
      else
        .error ("converter failed".data,
                [.probe entry.videoId, .download entry.videoId,
                 .transcode fileDown fileDst])
    else
      .ok ([.probe entry.videoId, .download entry.videoId, .remove fileDown],
           removePath fileDown fs)

/-- The per-entry body of `doUpdate` (src/lfpod.go lines 142-162): `os.Stat`
success (`err == nil`) skips the entry (`continue`); ANY stat error — both
not-found and any other filesystem error — falls through to the pipeline. -/
def processEntry (env : Env) (channelId : GoStr) (fs : Fs) (entry : YtEntry) :
    Except Fatal (List Act × Fs) :=
  match statFs env.statErr fs (getAudioFileName channelId entry.videoId) with
  | .ok => .ok ([], fs)
  | .notFound => entryPipeline env channelId fs entry
  | .otherError => entryPipeline env channelId fs entry

/-- The entry loop of `doUpdate`, threading the filesystem and accumulating
actions; a fatal exit aborts the rest of the sweep. -/
def processEntriesLoop (env : Env) (channelId : GoStr) (entries : List YtEntry)
    (acc : List Act) (fs : Fs) : Except Fatal (List Act × Fs) :=
  match entries with
  | [] => .ok (acc, fs)
  | e :: es =>
    match processEntry env channelId fs e with
    | .error (m, as) => .error (m, acc ++ as)
    | .ok (as, fs1) => processEntriesLoop env channelId es (acc ++ as) fs1

/-- `xml.Unmarshal` applied to the data `readFeed` returned: unmarshalling
`nil` data always fails (an empty document is not a feed). -/
def parseInput (env : Env) (data : Option GoStr) : Except GoStr YtFeed :=
  match data with
  | none => .error "EOF".data
  | some d => env.unmarshal d

/-- Fetch and parse one channel, as both `doUpdate` and `feedGetHandler` do:
a `readFeed` error skips the channel (`none`); a parse failure is fatal
(`Except.error`, the `log.Fatal` inside `parseFeed`). -/
def channelFetchParse (env : Env) (f : ConfFeed) : Except GoStr (Option YtFeed) :=
  match readFeedGo (env.net f.channelId) with
  | (_, some _) => .ok none
  | (data, none) =>
    match parseFeedGo (parseInput env data) f.keywords with
    | .error e => .error e
    | .ok ytf => .ok (some ytf)

/-- One channel of the `doUpdate` sweep (src/lfpod.go lines 135-163). -/
def processChannel (env : Env) (fs : Fs) (f : ConfFeed) :
    Except Fatal (List Act × Fs) :=
  match channelFetchParse env f with
  | .error m => .error (m, [])
  | .ok none => .ok ([], fs)
  | .ok (some ytf) => processEntriesLoop env f.channelId ytf.entries [] fs

/-- The channel loop of `doUpdate`. -/
def doUpdateLoop (env : Env) (feeds : List ConfFeed) (acc : List Act) (fs : Fs) :
    Except Fatal (List Act × Fs) :=
  match feeds with
  | [] => .ok (acc, fs)
  | f :: rest =>
    match processChannel env fs f with
    | .error (m, as) => .error (m, acc ++ as)
    | .ok (as, fs1) => doUpdateLoop env rest (acc ++ as) fs1

/-- `doUpdate` from src/lfpod.go: one full sweep over the configuration. -/
def doUpdate (env : Env) (conf : Conf) (fs : Fs) : Except Fatal (List Act × Fs) :=
  doUpdateLoop env conf.feeds [] fs

/-- One item of the published feed (`feeds.Item` in src/lfpod.go lines
196-203). -/
structure FeedItem where
  title : GoStr
  link : GoStr
  description : GoStr
  published : Nat
  enclosureLength : Nat
  deriving DecidableEq, Repr

/-- The enclosure / link URL built at src/lfpod.go line 191. -/
def audioUrl (addr channelId videoId : GoStr) : GoStr :=
  "http://".data ++ addr ++ "/audio/".data ++ channelId ++ '/' :: (videoId ++ ".opus".data)

/-- Why a feed request produces no document.  `fatalExit` models `log.Fatal`
inside the handler (the `time.Parse` failure at src/lfpod.go line 194, or the
unmarshal failure inside `parseFeed`): the whole process terminates.
`panicked` models a runtime panic inside the handler (the nil `Media`
dereference at line 199): the serving goroutine of `net/http` recovers it, so
only this request is aborted with no document written — the process
survives. -/
inductive ReqFail where
  | fatalExit (msg : GoStr)
  | panicked (msg : GoStr)
  deriving DecidableEq, Repr

/-- The per-entry body of `feedGetHandler` (src/lfpod.go lines 187-205): only
entries whose `os.Stat` succeeds produce an item; for those, a malformed
published timestamp hits `log.Fatal` (process termination), while a nil
`Media` pointer is a nil dereference — a panic recovered by `net/http`,
aborting only the request. -/
def handlerEntry (env : Env) (fs : Fs) (addr channelId : GoStr) (e : YtEntry) :
    Except ReqFail (Option FeedItem) :=
  match statFs env.statErr fs (getAudioFileName channelId e.videoId) with
  | .ok =>
    match env.parseTime e.published with
    | none => .error (.fatalExit "parsing time".data)
    | some t =>
      match e.media with
      | none => .error (.panicked "nil pointer dereference".data)
      | some desc =>
        .ok (some ⟨e.title, audioUrl addr channelId e.videoId, desc, t,
                   env.fileSize (getAudioFileName channelId e.videoId)⟩)
  | .notFound => .ok none
  | .otherError => .ok none

/-- The entry loop of `feedGetHandler`, collecting items in feed order; both
failure kinds abort the request at that point (a fatal by killing the
process, a panic by unwinding the handler). -/
def handlerEntriesLoop (env : Env) (fs : Fs) (addr channelId : GoStr) :
    List YtEntry → Except ReqFail (List FeedItem)
  | [] => .ok []
  | e :: es =>
    match handlerEntry env fs addr channelId e with
    | .error m => .error m
    | .ok none => handlerEntriesLoop env fs addr channelId es
    | .ok (some it) =>
      match handlerEntriesLoop env fs addr channelId es with
      | .error m => .error m
      | .ok its => .ok (it :: its)

/-- One channel of `feedGetHandler`: a `readFeed` error skips the channel, a
parse failure is `log.Fatal` (process termination). -/
def handlerChannel (env : Env) (fs : Fs) (addr : GoStr) (f : ConfFeed) :
    Except ReqFail (List FeedItem) :=
  match channelFetchParse env f with
  | .error m => .error (.fatalExit m)
  | .ok none => .ok []
  | .ok (some ytf) => handlerEntriesLoop env fs addr f.channelId ytf.entries

/-- The channel loop of `feedGetHandler`. -/
def handlerLoop (env : Env) (fs : Fs) (addr : GoStr) :
    List ConfFeed → Except ReqFail (List FeedItem)
  | [] => .ok []
  | f :: rest =>
    match handlerChannel env fs addr f with
    | .error m => .error m
    | .ok its =>
      match handlerLoop env fs addr rest with
      | .error m => .error m
      | .ok more => .ok (its ++ more)

/-- `feedGetHandler` from src/lfpod.go: `.ok items` is a complete well-formed
feed document (written by `WriteAtom`) whose items are `items`;
`.error (.fatalExit m)` is process termination before any document is
written; `.error (.panicked m)` is a recovered handler panic — this request
gets no document, the process survives. -/
def feedGetHandler (env : Env) (conf : Conf) (fs : Fs) :
    Except ReqFail (List FeedItem) :=
  handlerLoop env fs conf.serverAddress conf.feeds

/-! ### Basic facts about the keyword filter -/

theorem filterLoop_eq_filter (ks : List GoStr) (es : List YtEntry) :
    filterLoop ks es = es.filter (fun e => keywordMatchLoop e.title ks) := by
  induction es with
  | nil => rfl
  | cons e es ih =>
    cases h : keywordMatchLoop e.title ks <;>
      simp [filterLoop, List.filter_cons, h, ih]

theorem keywordMatchLoop_iff (t : GoStr) (ks : List GoStr) :
    keywordMatchLoop t ks = true ↔ ∃ k ∈ ks, lowerStr k <:+: lowerStr t := by
  induction ks with
  | nil => simp [keywordMatchLoop]
  | cons k ks ih =>
    by_cases h : lowerStr k <:+: lowerStr t
    · simp [keywordMatchLoop, containsSub, h]
    · simp [keywordMatchLoop, containsSub, h, ih]

/-- The two sample entries of the spec's scenario 1 (titles "A" and "B"). -/
def entryA : YtEntry := ⟨"A".data, "vA".data, [], none⟩

/-- Second sample entry of the spec's scenario 1. -/
def entryB : YtEntry := ⟨"B".data, "vB".data, [], none⟩

/-- C1 counterexample: a channel configured with `keywords: []` (a non-nil
empty slice) retains NO entry, not every entry: `parseFeed` returns all
entries only for a nil keyword slice, and the filter loop appends nothing
when there are no keywords. -/
theorem C1_empty_keywords_counterexample :
    parseFeedGo (.ok ⟨[entryA, entryB]⟩) (some []) = .ok ⟨[]⟩
      ∧ ([] : List YtEntry) ≠ [entryA, entryB] := by
  exact ⟨rfl, by decide⟩

/-- C1 (amended): an ABSENT (nil) keyword slice returns all entries
unmodified; a NON-NIL keyword slice — including the empty one — retains
exactly the entries whose title contains at least one keyword as a
case-insensitive substring, so `keywords: []` retains no entry. -/
theorem C1_keyword_filtering (f : YtFeed) (es : List YtEntry) (t : GoStr)
    (ks : List GoStr) :
    parseFeedGo (.ok f) none = .ok f
  ∧ parseFeedGo (.ok f) (some ks) =
      .ok ⟨f.entries.filter (fun e => keywordMatchLoop e.title ks)⟩
  ∧ filterLoop [] es = []
  ∧ (∀ e, e ∈ filterLoop ks es ↔ e ∈ es ∧ keywordMatchLoop e.title ks = true)
  ∧ (keywordMatchLoop t ks = true ↔ ∃ k ∈ ks, lowerStr k <:+: lowerStr t) := by
  refine ⟨rfl, ?_, ?_, ?_, keywordMatchLoop_iff t ks⟩
  · simp [parseFeedGo, filterLoop_eq_filter]
  · induction es with
    | nil => rfl
    | cons e es ih => simp [filterLoop, keywordMatchLoop, ih]
  · intro e
    rw [filterLoop_eq_filter]
    simp [List.mem_filter]

/-- C9: the filter is an order-preserving subsequence of the input without
duplication — the output is a sublist of the input, and no entry occurs in
the output more often than in the input (the inner keyword loop breaks at the
first match, so an entry matching several keywords is appended once). -/
theorem C9_filter_sublist (ks : List GoStr) (es : List YtEntry) (e : YtEntry) :
    (filterLoop ks es).Sublist es
      ∧ (filterLoop ks es).count e ≤ es.count e := by
  rw [filterLoop_eq_filter]
  exact ⟨List.filter_sublist es, (List.filter_sublist es).count_le e⟩

/-! ### Branch lemmas for the per-entry pipeline -/

theorem processEntry_stat_ok (env : Env) (ch : GoStr) (fs : Fs) (e : YtEntry)
    (h : statFs env.statErr fs (getAudioFileName ch e.videoId) = .ok) :
    processEntry env ch fs e = .ok ([], fs) := by
  unfold processEntry
  rw [h]

theorem processEntry_stat_not_ok (env : Env) (ch : GoStr) (fs : Fs) (e : YtEntry)
    (h : statFs env.statErr fs (getAudioFileName ch e.videoId) ≠ .ok) :
    processEntry env ch fs e = entryPipeline env ch fs e := by
  unfold processEntry
  cases hs : statFs env.statErr fs (getAudioFileName ch e.videoId) with
  | ok => exact absurd hs h
  | notFound => rfl
  | otherError => rfl

theorem entryPipeline_not_ready (env : Env) (ch : GoStr) (fs : Fs) (e : YtEntry)
    (h : isVideoReady (env.probe e.videoId) = false) :
    entryPipeline env ch fs e = .ok ([.probe e.videoId], fs) := by
  simp [entryPipeline, h]

theorem entryPipeline_download_fail (env : Env) (ch : GoStr) (fs : Fs) (e : YtEntry)
    (hr : isVideoReady (env.probe e.videoId) = true)
    (hd : env.downloadOk e.videoId = false) :
    entryPipeline env ch fs e =
      .ok ([.probe e.videoId, .download e.videoId, .remove e.videoId],
           removePath e.videoId fs) := by
  simp [entryPipeline, hr, hd]

theorem entryPipeline_success (env : Env) (ch : GoStr) (fs : Fs) (e : YtEntry)
    (hr : isVideoReady (env.probe e.videoId) = true)
    (hd : env.downloadOk e.videoId = true)
    (hrec : env.recodeOk e.videoId = true) :
    entryPipeline env ch fs e =
      .ok ([.probe e.videoId, .download e.videoId,
            .transcode e.videoId (getAudioFileName ch e.videoId),
            .rename tmpName (getAudioFileName ch e.videoId),
            .remove e.videoId],
           removePath e.videoId
             (insertPath (getAudioFileName ch e.videoId)
               (removePath tmpName (insertPath tmpName (insertPath e.videoId fs))))) := by
  simp [entryPipeline, hr, hd, hrec]

theorem entryPipeline_recode_fatal (env : Env) (ch : GoStr) (fs : Fs) (e : YtEntry)
    (hr : isVideoReady (env.probe e.videoId) = true)
    (hd : env.downloadOk e.videoId = true)
    (hrec : env.recodeOk e.videoId = false) :
    entryPipeline env ch fs e =
      .error ("converter failed".data,
              [.probe e.videoId, .download e.videoId,
               .transcode e.videoId (getAudioFileName ch e.videoId)]) := by
  simp [entryPipeline, hr, hd, hrec]

/-! ### Readiness probe -/

/-- C7: `isVideoReady` is true iff the probe invocation succeeded and its
output contains `not_live` or `was_live` as a substring; any invocation
failure yields not-ready.  Concretely, output `is_live` is not ready and
output `was_live` is ready; downstream, a probe answering `is_live` means the
sweep never invokes the downloader for that entry, while `was_live` (with the
artifact absent) means the downloader is invoked. -/
theorem C7_readiness_decision :
    (∀ res : Option GoStr, isVideoReady res = true ↔
        ∃ out, res = some out ∧
          ("not_live".data <:+: out ∨ "was_live".data <:+: out))
  ∧ isVideoReady none = false
  ∧ isVideoReady (some "is_live".data) = false
  ∧ isVideoReady (some "was_live".data) = true
  ∧ (∀ env ch fs e, env.probe e.videoId = some "is_live".data →
        Act.download e.videoId ∉ actsOf (processEntry env ch fs e))
  ∧ (∀ env ch fs e, env.probe e.videoId = some "was_live".data →
        statFs env.statErr fs (getAudioFileName ch e.videoId) ≠ .ok →
        Act.download e.videoId ∈ actsOf (processEntry env ch fs e)) := by
  refine ⟨?_, rfl, by decide, by decide, ?_, ?_⟩
  · intro res
    cases res with
    | none => simp [isVideoReady]
    | some out => simp [isVideoReady, containsSub]
  · intro env ch fs e hp
    have hnr : isVideoReady (env.probe e.videoId) = false := by
      rw [hp]; decide
    by_cases hs : statFs env.statErr fs (getAudioFileName ch e.videoId) = .ok
    · rw [processEntry_stat_ok env ch fs e hs]
      simp [actsOf]
    · rw [processEntry_stat_not_ok env ch fs e hs,
          entryPipeline_not_ready env ch fs e hnr]
      simp [actsOf]
  · intro env ch fs e hp hs
    have hr : isVideoReady (env.probe e.videoId) = true := by
      rw [hp]; decide
    rw [processEntry_stat_not_ok env ch fs e hs]
    cases hd : env.downloadOk e.videoId with
    | false =>
      rw [entryPipeline_download_fail env ch fs e hr hd]
      simp [actsOf]
    | true =>
      cases hrec : env.recodeOk e.videoId with
      | false =>
        rw [entryPipeline_recode_fatal env ch fs e hr hd hrec]
        simp [actsOf]
      | true =>
        rw [entryPipeline_success env ch fs e hr hd hrec]
        simp [actsOf]

/-! ### readFeed -/

/-- C5: `readFeed` error reporting.  Transport failures and non-success
statuses return no document together with a non-nil error, and a fully read
200 body is returned with a nil error — but a failed BODY READ on a 200
response returns a nil document with a nil error, because the
`body, err := ioutil.ReadAll(...)` statement shadows the outer `err` and the
final `return nil, err` sees the outer, nil one. -/
theorem C5_readFeed_shadowed_err :
    readFeedGo (.response 200 (.error "unexpected EOF".data)) = (none, none)
  ∧ readFeedGo (.transportError "dial tcp: i/o timeout".data) =
      (none, some "dial tcp: i/o timeout".data)
  ∧ (∀ b, readFeedGo (.response 404 b) = (none, some (statusErrMsg 404)))
  ∧ (∀ b, readFeedGo (.response 200 (.ok b)) = (some b, none)) :=
  ⟨rfl, rfl, fun _ => rfl, fun _ => rfl⟩

/-! ### C2: idempotence of the sweep -/

/-- Whether a stat result is success (`err == nil`). -/
def statOkB (r : StatRes) : Bool :=
  match r with
  | .ok => true
  | .notFound => false
  | .otherError => false

/-- Every entry of every channel that the sweep will reach has its artifact
committed: for each configured feed, either retrieval fails (the channel is
skipped) — but not the parse, which would be fatal — or every parsed entry
stats successfully at its canonical path. -/
def allCommittedB (env : Env) (feeds : List ConfFeed) (fs : Fs) : Bool :=
  feeds.all fun f =>
    match channelFetchParse env f with
    | .error _ => false
    | .ok none => true
    | .ok (some ytf) =>
      ytf.entries.all fun e =>
        statOkB (statFs env.statErr fs (getAudioFileName f.channelId e.videoId))

theorem statOkB_eq_true (r : StatRes) : statOkB r = true ↔ r = .ok := by
  cases r <;> simp [statOkB]

theorem processEntriesLoop_all_ok (env : Env) (ch : GoStr) (entries : List YtEntry) :
    ∀ acc fs,
      (∀ e ∈ entries, statFs env.statErr fs (getAudioFileName ch e.videoId) = .ok) →
      processEntriesLoop env ch entries acc fs = .ok (acc, fs) := by
  induction entries with
  | nil => intro acc fs _; rfl
  | cons e es ih =>
    intro acc fs h
    unfold processEntriesLoop
    rw [processEntry_stat_ok env ch fs e (h e (by simp))]
    show processEntriesLoop env ch es (acc ++ []) fs = .ok (acc, fs)
    rw [List.append_nil]
    exact ih acc fs (fun x hx => h x (by simp [hx]))

theorem doUpdateLoop_all_ok (env : Env) (feeds : List ConfFeed) :
    ∀ acc fs, allCommittedB env feeds fs = true →
      doUpdateLoop env feeds acc fs = .ok (acc, fs) := by
  induction feeds with
  | nil => intro acc fs _; rfl
  | cons f rest ih =>
    intro acc fs h
    rw [allCommittedB, List.all_cons, Bool.and_eq_true] at h
    obtain ⟨hf, hrest⟩ := h
    cases hcf : channelFetchParse env f with
    | error m =>
      rw [hcf] at hf
      exact Bool.noConfusion hf
    | ok oyt =>
      cases oyt with
      | none =>
        unfold doUpdateLoop processChannel
        simp only [hcf, List.append_nil]
        exact ih acc fs hrest
      | some ytf =>
        rw [hcf] at hf
        have hall : ∀ e ∈ ytf.entries,
            statFs env.statErr fs (getAudioFileName f.channelId e.videoId) = .ok := by
          intro e he
          exact (statOkB_eq_true _).mp ((List.all_eq_true.mp hf) e he)
        have hloop := processEntriesLoop_all_ok env f.channelId ytf.entries [] fs hall
        unfold doUpdateLoop processChannel
        simp only [hcf, hloop, List.append_nil]
        exact ih acc fs hrest

/-- C2: idempotence.  An entry whose artifact stat succeeds at its canonical
path is skipped outright — no probe, download, transcode, rename or remove —
and the filesystem is untouched; consequently a sweep over a configuration in
which every reachable entry is already committed performs no action at all
and leaves the filesystem unchanged, so a second identical sweep does the
same. -/
theorem C2_sweep_idempotent :
    (∀ env ch fs (e : YtEntry),
       statFs env.statErr fs (getAudioFileName ch e.videoId) = .ok →
       processEntry env ch fs e = .ok ([], fs))
  ∧ (∀ env conf fs, allCommittedB env conf.feeds fs = true →
       doUpdate env conf fs = .ok ([], fs)) :=
  ⟨processEntry_stat_ok,
   fun env conf fs h => doUpdateLoop_all_ok env conf.feeds [] fs h⟩

/-- A sample entry used by concrete evaluations. -/
def entryV1 : YtEntry := ⟨"T".data, "v1".data, [], none⟩

/-- Environment in which channel retrieval succeeds, the document parses to
the single entry `entryV1`, and the filesystem misbehaves in no way. -/
def envCommitted : Env :=
  ⟨fun _ => .response 200 (.ok "doc".data),
   fun _ => .ok ⟨[entryV1]⟩,
   fun _ => false,
   fun _ => none,
   fun _ => false,
   fun _ => false,
   fun _ => none,
   fun _ => 0⟩

/-- Filesystem already holding `entryV1`'s artifact for channel `c1`. -/
def fsCommitted : Fs := [getAudioFileName "c1".data "v1".data]

/-- One-channel configuration for the concrete sweeps. -/
def confCommitted : Conf := ⟨[⟨"n".data, "c1".data, none⟩], "127.0.0.1:8080".data⟩

theorem C2_sweep_idempotent_witness :
    statFs envCommitted.statErr fsCommitted (getAudioFileName "c1".data entryV1.videoId)
        = .ok
  ∧ processEntry envCommitted "c1".data fsCommitted entryV1 = .ok ([], fsCommitted)
  ∧ allCommittedB envCommitted confCommitted.feeds fsCommitted = true
  ∧ doUpdate envCommitted confCommitted fsCommitted = .ok ([], fsCommitted) :=
  ⟨by decide,
   C2_sweep_idempotent.1 envCommitted "c1".data fsCommitted entryV1 (by decide),
   by decide,
   C2_sweep_idempotent.2 envCommitted confCommitted fsCommitted (by decide)⟩

/-! ### C4: malformed feed documents -/

/-- Environment whose feed document is retrieved fine but fails to
unmarshal. -/
def envBadXml : Env :=
  ⟨fun _ => .response 200 (.ok "<bad".data),
   fun _ => .error "XML syntax error".data,
   fun _ => false,
   fun _ => none,
   fun _ => false,
   fun _ => false,
   fun _ => none,
   fun _ => 0⟩

/-- Environment whose feed retrieval fails at the transport layer. -/
def envNetDown : Env :=
  ⟨fun _ => .transportError "dial tcp: i/o timeout".data,
   fun _ => .error "unreached".data,
   fun _ => false,
   fun _ => none,
   fun _ => false,
   fun _ => false,
   fun _ => none,
   fun _ => 0⟩

/-- C4 counterexample: a malformed feed document does NOT merely skip the
channel — `parseFeed` calls `log.Fatal` on an unmarshal error, so the whole
sweep (and process) terminates, modelled by the sweep returning
`Except.error` instead of completing. -/
theorem C4_parse_fatal_counterexample :
    doUpdate envBadXml confCommitted [] = .error ("XML syntax error".data, []) := by
  rfl

/-- C4 (amended): only NETWORK failures are logged and skipped per channel; a
malformed feed document (unmarshal failure) terminates the process from
inside `parseFeed` via `log.Fatal`, aborting the rest of the sweep. -/
theorem C4_parse_failure_fatal (env : Env) (fs : Fs) (f : ConfFeed) :
    (∀ data m, readFeedGo (env.net f.channelId) = (data, none) →
       parseFeedGo (parseInput env data) f.keywords = .error m →
       processChannel env fs f = .error (m, []))
  ∧ (∀ data m, readFeedGo (env.net f.channelId) = (data, some m) →
       processChannel env fs f = .ok ([], fs)) := by
  constructor
  · intro data m h1 h2
    simp [processChannel, channelFetchParse, h1, h2]
  · intro data m h1
    simp [processChannel, channelFetchParse, h1]

theorem C4_parse_failure_fatal_witness :
    readFeedGo (envBadXml.net "c1".data) = (some "<bad".data, none)
  ∧ parseFeedGo (parseInput envBadXml (some "<bad".data)) none
      = .error "XML syntax error".data
  ∧ processChannel envBadXml [] ⟨"n".data, "c1".data, none⟩
      = .error ("XML syntax error".data, [])
  ∧ readFeedGo (envNetDown.net "c1".data) = (none, some "dial tcp: i/o timeout".data)
  ∧ processChannel envNetDown [] ⟨"n".data, "c1".data, none⟩ = .ok ([], []) :=
  ⟨rfl, rfl,
   (C4_parse_failure_fatal envBadXml [] ⟨"n".data, "c1".data, none⟩).1
     (some "<bad".data) "XML syntax error".data rfl rfl,
   rfl,
   (C4_parse_failure_fatal envNetDown [] ⟨"n".data, "c1".data, none⟩).2
     none "dial tcp: i/o timeout".data rfl⟩

/-! ### C6: existence-check failures -/

/-- Environment whose every `os.Stat` fails with a non-not-found error, whose
probe reports `not_live`, and whose download and transcode succeed. -/
def envStatBroken : Env :=
  ⟨fun _ => .response 200 (.ok "doc".data),
   fun _ => .ok ⟨[entryV1]⟩,
   fun _ => true,
   fun _ => some "not_live".data,
   fun _ => true,
   fun _ => true,
   fun _ => none,
   fun _ => 0⟩

/-- C6 counterexample: when the existence check fails with an error other
than not-found, the entry is NOT skipped: the code only skips on `err == nil`
(stat success), so the stat-error entry proceeds to the readiness probe and
the download. -/
theorem C6_stat_error_counterexample :
    statFs envStatBroken.statErr [] (getAudioFileName "c1".data entryV1.videoId)
        = .otherError
  ∧ Act.probe "v1".data ∈ actsOf (processEntry envStatBroken "c1".data [] entryV1)
  ∧ Act.download "v1".data ∈ actsOf (processEntry envStatBroken "c1".data [] entryV1) := by
  refine ⟨by decide, ?_, ?_⟩ <;> decide

/-- C6 (amended): a filesystem existence-check failure other than not-found
is treated exactly like absence — the entry proceeds: the readiness probe
always runs, and if the probe reports ready, the download tool is invoked
too; the entry is not skipped for the cycle. -/
theorem C6_stat_error_proceeds (env : Env) (ch : GoStr) (fs : Fs) (e : YtEntry)
    (h : statFs env.statErr fs (getAudioFileName ch e.videoId) = .otherError) :
    processEntry env ch fs e = entryPipeline env ch fs e
  ∧ Act.probe e.videoId ∈ actsOf (processEntry env ch fs e)
  ∧ (isVideoReady (env.probe e.videoId) = true →
       Act.download e.videoId ∈ actsOf (processEntry env ch fs e)) := by
  have hne : statFs env.statErr fs (getAudioFileName ch e.videoId) ≠ .ok := by
    rw [h]; exact fun hh => StatRes.noConfusion hh
  have heq := processEntry_stat_not_ok env ch fs e hne
  refine ⟨heq, ?_, ?_⟩
  · rw [heq]
    cases hr : isVideoReady (env.probe e.videoId) with
    | false => rw [entryPipeline_not_ready env ch fs e hr]; simp [actsOf]
    | true =>
      cases hd : env.downloadOk e.videoId with
      | false => rw [entryPipeline_download_fail env ch fs e hr hd]; simp [actsOf]
      | true =>
        cases hrec : env.recodeOk e.videoId with
        | false => rw [entryPipeline_recode_fatal env ch fs e hr hd hrec]; simp [actsOf]
        | true => rw [entryPipeline_success env ch fs e hr hd hrec]; simp [actsOf]
  · intro hr
    rw [heq]
    cases hd : env.downloadOk e.videoId with
    | false => rw [entryPipeline_download_fail env ch fs e hr hd]; simp [actsOf]
    | true =>
      cases hrec : env.recodeOk e.videoId with
      | false => rw [entryPipeline_recode_fatal env ch fs e hr hd hrec]; simp [actsOf]
      | true => rw [entryPipeline_success env ch fs e hr hd hrec]; simp [actsOf]

theorem C6_stat_error_proceeds_witness :
    statFs envStatBroken.statErr [] (getAudioFileName "c1".data entryV1.videoId)
        = .otherError
  ∧ processEntry envStatBroken "c1".data [] entryV1
      = entryPipeline envStatBroken "c1".data [] entryV1
  ∧ Act.probe entryV1.videoId ∈ actsOf (processEntry envStatBroken "c1".data [] entryV1)
  ∧ Act.download entryV1.videoId
      ∈ actsOf (processEntry envStatBroken "c1".data [] entryV1) :=
  ⟨by decide,
   (C6_stat_error_proceeds envStatBroken "c1".data [] entryV1 (by decide)).1,
   (C6_stat_error_proceeds envStatBroken "c1".data [] entryV1 (by decide)).2.1,
   (C6_stat_error_proceeds envStatBroken "c1".data [] entryV1 (by decide)).2.2
     (by decide)⟩

/-- Environment whose probe reports a broadcast still in progress. -/
def envIsLive : Env :=
  ⟨fun _ => .response 200 (.ok "doc".data),
   fun _ => .ok ⟨[entryV1]⟩,
   fun _ => false,
   fun _ => some "is_live".data,
   fun _ => true,
   fun _ => true,
   fun _ => none,
   fun _ => 0⟩

/-- Environment whose probe reports a finished broadcast. -/
def envWasLive : Env :=
  ⟨fun _ => .response 200 (.ok "doc".data),
   fun _ => .ok ⟨[entryV1]⟩,
   fun _ => false,
   fun _ => some "was_live".data,
   fun _ => true,
   fun _ => true,
   fun _ => none,
   fun _ => 0⟩

theorem C7_readiness_decision_witness :
    envIsLive.probe entryV1.videoId = some "is_live".data
  ∧ Act.download entryV1.videoId ∉ actsOf (processEntry envIsLive "c1".data [] entryV1)
  ∧ envWasLive.probe entryV1.videoId = some "was_live".data
  ∧ statFs envWasLive.statErr [] (getAudioFileName "c1".data entryV1.videoId) ≠ .ok
  ∧ Act.download entryV1.videoId ∈ actsOf (processEntry envWasLive "c1".data [] entryV1) :=
  ⟨rfl,
   C7_readiness_decision.2.2.2.2.1 envIsLive "c1".data [] entryV1 rfl,
   rfl,
   by decide,
   C7_readiness_decision.2.2.2.2.2 envWasLive "c1".data [] entryV1 rfl (by decide)⟩

/-! ### C3: the canonical artifact path -/

theorem splitSep_no_sep (sep : Char) (l : List Char) (h : sep ∉ l) :
    splitSep sep l = [l] := by
  induction l with
  | nil => rfl
  | cons c cs ih =>
    rw [List.mem_cons] at h
    push_neg at h
    obtain ⟨h1, h2⟩ := h
    have hc : ¬ c = sep := fun hh => h1 hh.symm
    simp [splitSep, hc, ih h2]

theorem splitSep_append (sep : Char) (a b : List Char) (h : sep ∉ a) :
    splitSep sep (a ++ sep :: b) = a :: splitSep sep b := by
  induction a with
  | nil => simp [splitSep]
  | cons c cs ih =>
    rw [List.mem_cons] at h
    push_neg at h
    obtain ⟨h1, h2⟩ := h
    have hc : ¬ c = sep := fun hh => h1 hh.symm
    simp [splitSep, hc, ih h2]

theorem cleanFold_good (parts : List GoStr)
    (h : ∀ p ∈ parts, p ≠ [] ∧ p ≠ ['.'] ∧ p ≠ ['.', '.']) :
    ∀ acc, cleanFold acc parts = acc.reverse ++ parts := by
  induction parts with
  | nil => intro acc; simp [cleanFold]
  | cons p ps ih =>
    intro acc
    obtain ⟨h1, h2, h3⟩ := h p (by simp)
    have hcond : ¬(p = ([] : GoStr) ∨ p = ['.']) := by
      rintro (hh | hh)
      exacts [h1 hh, h2 hh]
    show (if p = ([] : GoStr) ∨ p = ['.'] then cleanFold acc ps
          else if p = ['.', '.'] then
            match acc with
            | [] => cleanFold [p] ps
            | q :: rest =>
              if q = ['.', '.'] then cleanFold (p :: acc) ps else cleanFold rest ps
          else cleanFold (p :: acc) ps) = acc.reverse ++ p :: ps
    rw [if_neg hcond, if_neg h3,
        ih (fun q hq => h q (List.mem_cons_of_mem _ hq)) (p :: acc)]
    simp

/-- Under well-formed identifiers (slash-free, and a channel id that is
neither empty nor a dot component), the canonical path is the plain
three-component join with no cleaning. -/
theorem getAudioFileName_eq (c v : GoStr)
    (hc : '/' ∉ c) (hv : '/' ∉ v)
    (hc1 : c ≠ []) (hc2 : c ≠ ['.']) (hc3 : c ≠ ['.', '.']) :
    getAudioFileName c v
      = "audio".data ++ '/' :: (c ++ '/' :: (v ++ '.' :: "opus".data)) := by
  have hA : ('/' : Char) ∉ "audio".data := by decide
  have hop : ('/' : Char) ∉ ('.' :: "opus".data) := by decide
  have hV : ('/' : Char) ∉ v ++ '.' :: "opus".data := by
    rw [List.mem_append]
    rintro (hh | hh)
    exacts [hv hh, hop hh]
  have hsplit :
      splitSep '/' ("audio".data ++ '/' :: (c ++ '/' :: (v ++ '.' :: "opus".data)))
        = ["audio".data, c, v ++ '.' :: "opus".data] := by
    rw [splitSep_append '/' _ _ hA, splitSep_append '/' _ _ hc,
        splitSep_no_sep '/' _ hV]
  have hVlen : (v ++ '.' :: "opus".data).length = v.length + 5 := by
    simp
  have hVne1 : v ++ '.' :: "opus".data ≠ [] := by
    intro hh
    rw [hh] at hVlen
    simp at hVlen
  have hVne2 : v ++ '.' :: "opus".data ≠ ['.'] := by
    intro hh
    rw [hh] at hVlen
    simp at hVlen
  have hVne3 : v ++ '.' :: "opus".data ≠ ['.', '.'] := by
    intro hh
    rw [hh] at hVlen
    simp at hVlen
  have hgood : ∀ p ∈ ["audio".data, c, v ++ '.' :: "opus".data],
      p ≠ [] ∧ p ≠ ['.'] ∧ p ≠ ['.', '.'] := by
    intro p hp
    rw [List.mem_cons, List.mem_cons, List.mem_cons] at hp
    rcases hp with rfl | rfl | rfl | hp
    · exact ⟨by decide, by decide, by decide⟩
    · exact ⟨hc1, hc2, hc3⟩
    · exact ⟨hVne1, hVne2, hVne3⟩
    · simp at hp
  have hclean :
      cleanFold []
          (splitSep '/' ("audio".data ++ '/' :: (c ++ '/' :: (v ++ '.' :: "opus".data))))
        = ["audio".data, c, v ++ '.' :: "opus".data] := by
    rw [hsplit, cleanFold_good _ hgood []]
    rfl
  show goClean ("audio".data ++ '/' :: (c ++ '/' :: (v ++ '.' :: "opus".data))) = _
  unfold goClean
  rw [hclean]
  show joinSep '/' ["audio".data, c, v ++ '.' :: "opus".data] = _
  rfl

theorem noSep_append_inj (sep : Char) :
    ∀ a b r s : List Char, sep ∉ a → sep ∉ b →
      a ++ sep :: r = b ++ sep :: s → a = b ∧ r = s := by
  intro a
  induction a with
  | nil =>
    intro b r s _ hb h
    cases b with
    | nil =>
      simp at h
      exact ⟨rfl, h⟩
    | cons y ys =>
      simp at h
      obtain ⟨hy, _⟩ := h
      cases hy
      exact absurd (List.mem_cons_self _ _) hb
  | cons x xs ih =>
    intro b r s ha hb h
    cases b with
    | nil =>
      simp at h
      obtain ⟨hx, _⟩ := h
      cases hx
      exact absurd (List.mem_cons_self _ _) ha
    | cons y ys =>
      simp at h
      obtain ⟨hxy, h2⟩ := h
      rw [List.mem_cons] at ha hb
      push_neg at ha
      push_neg at hb
      obtain ⟨hcc, hrr⟩ := ih ys r s ha.2 hb.2 h2
      exact ⟨by rw [hxy, hcc], hrr⟩

/-- C3 counterexample: `getAudioFileName` is NOT injective on arbitrary
identifiers — a slash inside an id lets two distinct `(channelId, videoId)`
pairs collide on the same canonical path. -/
theorem C3_collision_counterexample :
    getAudioFileName "a".data "b/c".data = getAudioFileName "a/b".data "c".data
  ∧ ("a".data, "b/c".data) ≠ ("a/b".data, "c".data) := by
  constructor
  · rfl
  · decide

/-- C3 (amended): the canonical path is a pure deterministic function of
`(channelId, videoId)` (with the format fixed to `opus`), and it is injective
as long as both identifiers are single path components: no slash in either,
and a channel id that is non-empty and neither `.` nor `..`.  Without that
restriction distinct pairs can collide (see the counterexample). -/
theorem C3_canonical_path (c v c' v' : GoStr)
    (hc : '/' ∉ c) (hv : '/' ∉ v)
    (hc1 : c ≠ []) (hc2 : c ≠ ['.']) (hc3 : c ≠ ['.', '.'])
    (hc' : '/' ∉ c') (hv' : '/' ∉ v')
    (hc1' : c' ≠ []) (hc2' : c' ≠ ['.']) (hc3' : c' ≠ ['.', '.']) :
    (∀ a b, a = c → b = v → getAudioFileName a b = getAudioFileName c v)
  ∧ (getAudioFileName c v = getAudioFileName c' v' → c = c' ∧ v = v') := by
  constructor
  · intro a b ha hb
    rw [ha, hb]
  · intro h
    rw [getAudioFileName_eq c v hc hv hc1 hc2 hc3,
        getAudioFileName_eq c' v' hc' hv' hc1' hc2' hc3'] at h
    have h2 := List.append_cancel_left h
    injection h2 with _ h3
    obtain ⟨hcc, hvv⟩ := noSep_append_inj '/' c c' _ _ hc hc' h3
    exact ⟨hcc, List.append_cancel_right hvv⟩

theorem C3_canonical_path_witness :
    (('/' ∉ "chan1".data) ∧ ('/' ∉ "vid1".data) ∧ "chan1".data ≠ ([] : GoStr)
       ∧ "chan1".data ≠ ['.'] ∧ "chan1".data ≠ ['.', '.']
       ∧ ('/' ∉ "chan2".data) ∧ ('/' ∉ "vid2".data) ∧ "chan2".data ≠ ([] : GoStr)
       ∧ "chan2".data ≠ ['.'] ∧ "chan2".data ≠ ['.', '.'])
  ∧ (∀ a b, a = "chan1".data → b = "vid1".data →
       getAudioFileName a b = getAudioFileName "chan1".data "vid1".data)
  ∧ (getAudioFileName "chan1".data "vid1".data
        = getAudioFileName "chan2".data "vid2".data →
       "chan1".data = "chan2".data ∧ "vid1".data = "vid2".data) :=
  ⟨by decide,
   (C3_canonical_path "chan1".data "vid1".data "chan2".data "vid2".data
      (by decide) (by decide) (by decide) (by decide) (by decide)
      (by decide) (by decide) (by decide) (by decide) (by decide)).1,
   (C3_canonical_path "chan1".data "vid1".data "chan2".data "vid2".data
      (by decide) (by decide) (by decide) (by decide) (by decide)
      (by decide) (by decide) (by decide) (by decide) (by decide)).2⟩

/-! ### C10: committed artifacts across a sweep -/

theorem mem_insertPath (p q : GoStr) (fs : Fs) (h : p ∈ fs) : p ∈ insertPath q fs := by
  unfold insertPath
  split
  · exact h
  · exact List.mem_cons_of_mem _ h

theorem mem_removePath (p q : GoStr) (fs : Fs) (h : p ∈ fs) (hne : p ≠ q) :
    p ∈ removePath q fs := by
  unfold removePath
  rw [List.mem_filter]
  exact ⟨h, by simp [hne]⟩

/-- Whether a string is free of path separators (a single path component). -/
def noSlashB (s : GoStr) : Bool := s.all (fun c => c ≠ '/')

theorem noSlashB_eq_true (s : GoStr) : noSlashB s = true ↔ '/' ∉ s := by
  rw [noSlashB, List.all_eq_true]
  constructor
  · intro h hmem
    exact absurd (h '/' hmem) (by simp)
  · intro h c hc
    simp
    intro hh
    exact h (hh ▸ hc)

/-- Every entry of every successfully parsed channel has a slash-free
videoId (channels that are skipped or whose parse is fatal constrain
nothing). -/
def videoIdsOkB (env : Env) (feeds : List ConfFeed) : Bool :=
  feeds.all fun f =>
    match channelFetchParse env f with
    | .error _ => true
    | .ok none => true
    | .ok (some ytf) => ytf.entries.all fun e => noSlashB e.videoId

theorem processEntry_preserves (env : Env) (ch : GoStr) (fs : Fs) (e : YtEntry)
    (p : GoStr) (hvid : '/' ∉ e.videoId) (hp : '/' ∈ p)
    (hperr : env.statErr p = false) (hpfs : p ∈ fs) :
    (∀ a ∈ actsOf (processEntry env ch fs e), ∀ s, a ≠ .remove p ∧ a ≠ .rename s p)
  ∧ (∀ acts fs1, processEntry env ch fs e = .ok (acts, fs1) → p ∈ fs1) := by
  have hpv : p ≠ e.videoId := fun hh => hvid (hh ▸ hp)
  have hvp : e.videoId ≠ p := fun hh => hpv hh.symm
  have hpt : p ≠ tmpName := by
    intro hh
    rw [hh] at hp
    exact absurd hp (by decide)
  by_cases hs : statFs env.statErr fs (getAudioFileName ch e.videoId) = .ok
  · rw [processEntry_stat_ok env ch fs e hs]
    constructor
    · intro a ha
      simp [actsOf] at ha
    · intro acts fs1 hh
      simp only [Except.ok.injEq, Prod.mk.injEq] at hh
      exact hh.2 ▸ hpfs
  · have hdst : getAudioFileName ch e.videoId ≠ p := by
      intro hh
      exact hs (by rw [hh]; simp [statFs, hperr, hpfs])
    rw [processEntry_stat_not_ok env ch fs e hs]
    cases hr : isVideoReady (env.probe e.videoId) with
    | false =>
      rw [entryPipeline_not_ready env ch fs e hr]
      constructor
      · intro a ha s
        simp [actsOf] at ha
        simp [ha]
      · intro acts fs1 hh
        simp only [Except.ok.injEq, Prod.mk.injEq] at hh
        exact hh.2 ▸ hpfs
    | true =>
      cases hd : env.downloadOk e.videoId with
      | false =>
        rw [entryPipeline_download_fail env ch fs e hr hd]
        constructor
        · intro a ha s
          simp [actsOf] at ha
          rcases ha with rfl | rfl | rfl <;> simp [hvp]
        · intro acts fs1 hh
          simp only [Except.ok.injEq, Prod.mk.injEq] at hh
          exact hh.2 ▸ mem_removePath p e.videoId fs hpfs hpv
      | true =>
        cases hrec : env.recodeOk e.videoId with
        | false =>
          rw [entryPipeline_recode_fatal env ch fs e hr hd hrec]
          constructor
          · intro a ha s
            simp [actsOf] at ha
            rcases ha with rfl | rfl | rfl <;> simp
          · intro acts fs1 hh
            simp at hh
        | true =>
          rw [entryPipeline_success env ch fs e hr hd hrec]
          constructor
          · intro a ha s
            simp [actsOf] at ha
            rcases ha with rfl | rfl | rfl | rfl | rfl <;>
              simp [hvp, fun hh => hdst hh]
          · intro acts fs1 hh
            simp only [Except.ok.injEq, Prod.mk.injEq] at hh
            refine hh.2 ▸ mem_removePath p e.videoId _ ?_ hpv
            refine mem_insertPath p _ _ ?_
            refine mem_removePath p tmpName _ ?_ hpt
            exact mem_insertPath p tmpName _ (mem_insertPath p e.videoId fs hpfs)

theorem processEntry_rename_dst (env : Env) (ch : GoStr) (fs : Fs) (e : YtEntry)
    (s d : GoStr) (h : Act.rename s d ∈ actsOf (processEntry env ch fs e)) :
    statFs env.statErr fs (getAudioFileName ch e.videoId) ≠ .ok
  ∧ d = getAudioFileName ch e.videoId := by
  by_cases hs : statFs env.statErr fs (getAudioFileName ch e.videoId) = .ok
  · rw [processEntry_stat_ok env ch fs e hs] at h
    simp [actsOf] at h
  · refine ⟨hs, ?_⟩
    rw [processEntry_stat_not_ok env ch fs e hs] at h
    cases hr : isVideoReady (env.probe e.videoId) with
    | false =>
      rw [entryPipeline_not_ready env ch fs e hr] at h
      simp [actsOf] at h
    | true =>
      cases hd : env.downloadOk e.videoId with
      | false =>
        rw [entryPipeline_download_fail env ch fs e hr hd] at h
        simp [actsOf] at h
      | true =>
        cases hrec : env.recodeOk e.videoId with
        | false =>
          rw [entryPipeline_recode_fatal env ch fs e hr hd hrec] at h
          simp [actsOf] at h
        | true =>
          rw [entryPipeline_success env ch fs e hr hd hrec] at h
          simp [actsOf] at h
          exact h.2

theorem processEntriesLoop_preserves (env : Env) (ch : GoStr) (p : GoStr)
    (hp : '/' ∈ p) (hperr : env.statErr p = false) :
    ∀ (entries : List YtEntry) (acc : List Act) (fs : Fs),
      (∀ e ∈ entries, '/' ∉ e.videoId) → p ∈ fs →
      (∀ a ∈ acc, ∀ s, a ≠ .remove p ∧ a ≠ .rename s p) →
      (∀ a ∈ actsOf (processEntriesLoop env ch entries acc fs), ∀ s,
         a ≠ .remove p ∧ a ≠ .rename s p)
      ∧ (∀ acts fs1, processEntriesLoop env ch entries acc fs = .ok (acts, fs1) →
           p ∈ fs1) := by
  intro entries
  induction entries with
  | nil =>
    intro acc fs _ hpfs hacc
    constructor
    · intro a ha
      exact hacc a ha
    · intro acts fs1 hh
      simp only [processEntriesLoop, Except.ok.injEq, Prod.mk.injEq] at hh
      exact hh.2 ▸ hpfs
  | cons e es ih =>
    intro acc fs hids hpfs hacc
    have hpe := processEntry_preserves env ch fs e p (hids e (by simp)) hp hperr hpfs
    cases hpr : processEntry env ch fs e with
    | error pair =>
      obtain ⟨m, as⟩ := pair
      have hloop : processEntriesLoop env ch (e :: es) acc fs = .error (m, acc ++ as) := by
        unfold processEntriesLoop
        rw [hpr]
      rw [hloop]
      constructor
      · intro a ha s
        simp only [actsOf, List.mem_append] at ha
        rcases ha with h1 | h1
        · exact hacc a h1 s
        · exact hpe.1 a (by rw [hpr]; simpa [actsOf] using h1) s
      · intro acts fs1 hh
        simp at hh
    | ok pair =>
      obtain ⟨as, fs2⟩ := pair
      have hloop : processEntriesLoop env ch (e :: es) acc fs
          = processEntriesLoop env ch es (acc ++ as) fs2 := by
        conv_lhs => rw [processEntriesLoop]
        rw [hpr]
      rw [hloop]
      refine ih (acc ++ as) fs2 (fun x hx => hids x (by simp [hx]))
        (hpe.2 as fs2 hpr) ?_
      intro a ha s
      rcases List.mem_append.mp ha with h1 | h1
      · exact hacc a h1 s
      · exact hpe.1 a (by rw [hpr]; simpa [actsOf] using h1) s

theorem processChannel_preserves (env : Env) (p : GoStr) (f : ConfFeed) (fs : Fs)
    (hp : '/' ∈ p) (hperr : env.statErr p = false) (hpfs : p ∈ fs)
    (hids : (match channelFetchParse env f with
             | .error _ => true
             | .ok none => true
             | .ok (some ytf) => ytf.entries.all fun e => noSlashB e.videoId) = true) :
    (∀ a ∈ actsOf (processChannel env fs f), ∀ s, a ≠ .remove p ∧ a ≠ .rename s p)
  ∧ (∀ acts fs1, processChannel env fs f = .ok (acts, fs1) → p ∈ fs1) := by
  cases hcf : channelFetchParse env f with
  | error m =>
    have hloop : processChannel env fs f = .error (m, []) := by
      unfold processChannel
      rw [hcf]
    rw [hloop]
    constructor
    · intro a ha
      simp [actsOf] at ha
    · intro acts fs1 hh
      simp at hh
  | ok oyt =>
    cases oyt with
    | none =>
      have hloop : processChannel env fs f = .ok ([], fs) := by
        unfold processChannel
        rw [hcf]
      rw [hloop]
      constructor
      · intro a ha
        simp [actsOf] at ha
      · intro acts fs1 hh
        simp only [Except.ok.injEq, Prod.mk.injEq] at hh
        exact hh.2 ▸ hpfs
    | some ytf =>
      have hloop : processChannel env fs f
          = processEntriesLoop env f.channelId ytf.entries [] fs := by
        unfold processChannel
        rw [hcf]
      rw [hcf] at hids
      have hall : ∀ e ∈ ytf.entries, '/' ∉ e.videoId := by
        intro e he
        exact (noSlashB_eq_true _).mp ((List.all_eq_true.mp hids) e he)
      rw [hloop]
      exact processEntriesLoop_preserves env f.channelId p hp hperr ytf.entries [] fs
        hall hpfs (by intro a ha; simp at ha)

theorem doUpdateLoop_preserves (env : Env) (p : GoStr)
    (hp : '/' ∈ p) (hperr : env.statErr p = false) :
    ∀ (feeds : List ConfFeed) (acc : List Act) (fs : Fs),
      videoIdsOkB env feeds = true → p ∈ fs →
      (∀ a ∈ acc, ∀ s, a ≠ .remove p ∧ a ≠ .rename s p) →
      (∀ a ∈ actsOf (doUpdateLoop env feeds acc fs), ∀ s,
         a ≠ .remove p ∧ a ≠ .rename s p)
      ∧ (∀ acts fs1, doUpdateLoop env feeds acc fs = .ok (acts, fs1) → p ∈ fs1) := by
  intro feeds
  induction feeds with
  | nil =>
    intro acc fs _ hpfs hacc
    constructor
    · intro a ha
      exact hacc a ha
    · intro acts fs1 hh
      simp only [doUpdateLoop, Except.ok.injEq, Prod.mk.injEq] at hh
      exact hh.2 ▸ hpfs
  | cons f rest ih =>
    intro acc fs hids hpfs hacc
    rw [videoIdsOkB, List.all_cons, Bool.and_eq_true] at hids
    obtain ⟨hf, hrest⟩ := hids
    have hpc := processChannel_preserves env p f fs hp hperr hpfs hf
    cases hpr : processChannel env fs f with
    | error pair =>
      obtain ⟨m, as⟩ := pair
      have hloop : doUpdateLoop env (f :: rest) acc fs = .error (m, acc ++ as) := by
        unfold doUpdateLoop
        rw [hpr]
      rw [hloop]
      constructor
      · intro a ha s
        simp only [actsOf, List.mem_append] at ha
        rcases ha with h1 | h1
        · exact hacc a h1 s
        · exact hpc.1 a (by rw [hpr]; simpa [actsOf] using h1) s
      · intro acts fs1 hh
        simp at hh
    | ok pair =>
      obtain ⟨as, fs2⟩ := pair
      have hloop : doUpdateLoop env (f :: rest) acc fs
          = doUpdateLoop env rest (acc ++ as) fs2 := by
        conv_lhs => rw [doUpdateLoop]
        rw [hpr]
      rw [hloop]
      refine ih (acc ++ as) fs2 hrest (hpc.2 as fs2 hpr) ?_
      intro a ha s
      rcases List.mem_append.mp ha with h1 | h1
      · exact hacc a h1 s
      · exact hpc.1 a (by rw [hpr]; simpa [actsOf] using h1) s

/-- Environment for the C10 counterexample: the single parsed entry has a
slash-carrying videoId that names another video's committed artifact, the
probe reports readiness, and the download fails (so `downloadAudio` runs
`os.Remove(outFile)` with `outFile = videoId`). -/
def envC10 : Env :=
  ⟨fun _ => .response 200 (.ok "doc".data),
   fun _ => .ok ⟨[⟨"T".data, "audio/c/w.opus".data, [], none⟩]⟩,
   fun _ => false,
   fun _ => some "not_live".data,
   fun _ => false,
   fun _ => false,
   fun _ => none,
   fun _ => 0⟩

/-- Filesystem holding the committed artifact of video `w` on channel `c`. -/
def fsC10 : Fs := ["audio/c/w.opus".data]

/-- Configuration with the single channel `c2` for the C10 counterexample. -/
def confC10 : Conf := ⟨[⟨"n".data, "c2".data, none⟩], "a".data⟩

/-- C10 counterexample: a sweep CAN remove a committed artifact.  With an
(adversarial) videoId equal to the relative path of another video's
committed artifact, a failed download makes `downloadAudio` run
`os.Remove(videoId)`, deleting that committed file — the sweep ends with the
artifact gone even though its own entry was never stat-checked as present. -/
theorem C10_removal_counterexample :
    fsC10 = [getAudioFileName "c".data "w".data]
  ∧ doUpdate envC10 confC10 fsC10 =
      .ok ([.probe "audio/c/w.opus".data, .download "audio/c/w.opus".data,
            .remove "audio/c/w.opus".data], [])
  ∧ Act.remove (getAudioFileName "c".data "w".data)
      ∈ actsOf (doUpdate envC10 confC10 fsC10) := by
  refine ⟨by decide, by rfl, by decide⟩

/-- C10 (amended): provided every parsed entry's videoId is a single path
component (slash-free), a path `p` that contains a separator (as every
canonical artifact path does), stats without error, and holds a committed
file at the start of the sweep is never the target of any `os.Remove` or
`os.Rename` during the sweep and is still present in the filesystem when the
sweep completes; moreover a rename to a canonical path happens only for an
entry whose existence check did not succeed, and only to that entry's own
canonical path. -/
theorem C10_committed_preserved (env : Env) (conf : Conf) (fs : Fs) (p : GoStr)
    (hids : videoIdsOkB env conf.feeds = true)
    (hp : '/' ∈ p) (hperr : env.statErr p = false) (hpfs : p ∈ fs) :
    (∀ a ∈ actsOf (doUpdate env conf fs), ∀ s, a ≠ .remove p ∧ a ≠ .rename s p)
  ∧ (∀ acts fs1, doUpdate env conf fs = .ok (acts, fs1) → p ∈ fs1)
  ∧ (∀ ch fs0 (e : YtEntry) s d,
       Act.rename s d ∈ actsOf (processEntry env ch fs0 e) →
       statFs env.statErr fs0 (getAudioFileName ch e.videoId) ≠ .ok
         ∧ d = getAudioFileName ch e.videoId) := by
  have h := doUpdateLoop_preserves env p hp hperr conf.feeds [] fs hids hpfs
    (by intro a ha; simp at ha)
  exact ⟨h.1, h.2, fun ch fs0 e s d hm => processEntry_rename_dst env ch fs0 e s d hm⟩

theorem C10_committed_preserved_witness :
    videoIdsOkB envCommitted confCommitted.feeds = true
  ∧ '/' ∈ getAudioFileName "c1".data "v1".data
  ∧ envCommitted.statErr (getAudioFileName "c1".data "v1".data) = false
  ∧ getAudioFileName "c1".data "v1".data ∈ fsCommitted
  ∧ (∀ a ∈ actsOf (doUpdate envCommitted confCommitted fsCommitted), ∀ s,
       a ≠ .remove (getAudioFileName "c1".data "v1".data)
         ∧ a ≠ .rename s (getAudioFileName "c1".data "v1".data)) :=
  ⟨by decide, by decide, rfl, by decide,
   (C10_committed_preserved envCommitted confCommitted fsCommitted
      (getAudioFileName "c1".data "v1".data)
      (by decide) (by decide) rfl (by decide)).1⟩

/-! ### C8: the feed request handler -/

/-- An entry is handler-safe in a given filesystem: if its artifact stats
successfully, its published timestamp parses and its media group is
present. -/
def entrySafeB (env : Env) (fs : Fs) (channelId : GoStr) (e : YtEntry) : Bool :=
  match statFs env.statErr fs (getAudioFileName channelId e.videoId) with
  | .ok => (env.parseTime e.published).isSome && e.media.isSome
  | .notFound => true
  | .otherError => true

/-- Every channel the handler reaches parses, and every artifact-bearing
entry is handler-safe. -/
def handlerSafeB (env : Env) (fs : Fs) (feeds : List ConfFeed) : Bool :=
  feeds.all fun f =>
    match channelFetchParse env f with
    | .error _ => false
    | .ok none => true
    | .ok (some ytf) => ytf.entries.all (entrySafeB env fs f.channelId)

theorem handlerEntry_safe (env : Env) (fs : Fs) (addr ch : GoStr) (e : YtEntry)
    (h : entrySafeB env fs ch e = true) :
    ∃ r, handlerEntry env fs addr ch e = .ok r := by
  cases hs : statFs env.statErr fs (getAudioFileName ch e.videoId) with
  | ok =>
    have h' := h
    unfold entrySafeB at h'
    rw [hs, Bool.and_eq_true] at h'
    obtain ⟨h1, h2⟩ := h'
    cases hpt : env.parseTime e.published with
    | none => rw [hpt] at h1; exact Bool.noConfusion h1
    | some t =>
      cases hm : e.media with
      | none => rw [hm] at h2; exact Bool.noConfusion h2
      | some desc =>
        refine ⟨some ⟨e.title, audioUrl addr ch e.videoId, desc, t,
                      env.fileSize (getAudioFileName ch e.videoId)⟩, ?_⟩
        unfold handlerEntry
        rw [hs, hpt, hm]
  | notFound =>
    exact ⟨none, by unfold handlerEntry; rw [hs]⟩
  | otherError =>
    exact ⟨none, by unfold handlerEntry; rw [hs]⟩

theorem handlerEntriesLoop_safe (env : Env) (fs : Fs) (addr ch : GoStr) :
    ∀ entries : List YtEntry, entries.all (entrySafeB env fs ch) = true →
      ∃ items, handlerEntriesLoop env fs addr ch entries = .ok items := by
  intro entries
  induction entries with
  | nil => intro _; exact ⟨[], rfl⟩
  | cons e es ih =>
    intro h
    rw [List.all_cons, Bool.and_eq_true] at h
    obtain ⟨he, hes⟩ := h
    obtain ⟨r, hr⟩ := handlerEntry_safe env fs addr ch e he
    obtain ⟨items, hitems⟩ := ih hes
    cases r with
    | none =>
      refine ⟨items, ?_⟩
      unfold handlerEntriesLoop
      rw [hr]
      exact hitems
    | some it =>
      refine ⟨it :: items, ?_⟩
      unfold handlerEntriesLoop
      rw [hr]
      show (match handlerEntriesLoop env fs addr ch es with
            | Except.error m => Except.error m
            | Except.ok its => Except.ok (it :: its)) = Except.ok (it :: items)
      rw [hitems]

theorem handlerChannel_safe (env : Env) (fs : Fs) (addr : GoStr) (f : ConfFeed)
    (h : (match channelFetchParse env f with
          | .error _ => false
          | .ok none => true
          | .ok (some ytf) => ytf.entries.all (entrySafeB env fs f.channelId)) = true) :
    ∃ items, handlerChannel env fs addr f = .ok items := by
  cases hcf : channelFetchParse env f with
  | error m =>
    rw [hcf] at h
    exact Bool.noConfusion h
  | ok oyt =>
    cases oyt with
    | none =>
      exact ⟨[], by unfold handlerChannel; rw [hcf]⟩
    | some ytf =>
      rw [hcf] at h
      obtain ⟨items, hi⟩ := handlerEntriesLoop_safe env fs addr f.channelId ytf.entries h
      refine ⟨items, ?_⟩
      unfold handlerChannel
      rw [hcf]
      exact hi

theorem handlerLoop_safe (env : Env) (fs : Fs) (addr : GoStr) :
    ∀ feeds : List ConfFeed, handlerSafeB env fs feeds = true →
      ∃ items, handlerLoop env fs addr feeds = .ok items := by
  intro feeds
  induction feeds with
  | nil => intro _; exact ⟨[], rfl⟩
  | cons f rest ih =>
    intro h
    rw [handlerSafeB, List.all_cons, Bool.and_eq_true] at h
    obtain ⟨hf, hrest⟩ := h
    obtain ⟨its, hits⟩ := handlerChannel_safe env fs addr f hf
    obtain ⟨more, hmore⟩ := ih hrest
    exact ⟨its ++ more, by unfold handlerLoop; rw [hits, hmore]⟩

/-- Environment in which the single entry's published timestamp does not
parse as RFC3339 while its artifact is committed. -/
def envBadTime : Env :=
  ⟨fun _ => .response 200 (.ok "doc".data),
   fun _ => .ok ⟨[⟨"T".data, "v1".data, "garbage".data, some "d".data⟩]⟩,
   fun _ => false,
   fun _ => none,
   fun _ => false,
   fun _ => false,
   fun _ => none,
   fun _ => 7⟩

/-- C8 counterexample: a malformed publish timestamp on an entry whose
artifact exists is NOT isolated — `feedGetHandler` hits `log.Fatal` inside
the request, terminating the process before any feed document is written. -/
theorem C8_bad_timestamp_counterexample :
    feedGetHandler envBadTime confCommitted fsCommitted
      = .error (.fatalExit "parsing time".data) := by
  rfl

/-- A fully well-formed entry (parseable timestamp, media present). -/
def entryFull : YtEntry :=
  ⟨"T".data, "v1".data, "2023-01-02T03:04:05Z".data, some "d".data⟩

/-- Environment in which the handler can serve the whole request. -/
def envHandlerOk : Env :=
  ⟨fun _ => .response 200 (.ok "doc".data),
   fun _ => .ok ⟨[entryFull]⟩,
   fun _ => false,
   fun _ => none,
   fun _ => false,
   fun _ => false,
   fun _ => some 1672628645,
   fun _ => 7⟩

/-- C8 (amended): the handler isolates CHANNEL-level retrieval failures (a
`readFeed` error contributes no items and the request continues), and when
every reachable channel parses and every artifact-bearing entry has a
parseable timestamp and a media group, a complete (possibly empty) feed
document is produced; but a malformed publish timestamp on an entry whose
artifact exists terminates the process (`log.Fatal` at src/lfpod.go line 194)
instead of being isolated to that entry, and a missing media group on such an
entry aborts the request with a handler panic (recovered by `net/http`, so
the process survives but this request yields no feed document). -/
theorem C8_feed_request (env : Env) (conf : Conf) (fs : Fs) (addr : GoStr)
    (f : ConfFeed) :
    (∀ d m, readFeedGo (env.net f.channelId) = (d, some m) →
       handlerChannel env fs addr f = .ok [])
  ∧ (handlerSafeB env fs conf.feeds = true →
       ∃ items, feedGetHandler env conf fs = .ok items)
  ∧ (∀ ch (e : YtEntry),
       statFs env.statErr fs (getAudioFileName ch e.videoId) = .ok →
       env.parseTime e.published = none →
       handlerEntry env fs addr ch e = .error (.fatalExit "parsing time".data))
  ∧ (∀ ch (e : YtEntry) (t : Nat),
       statFs env.statErr fs (getAudioFileName ch e.videoId) = .ok →
       env.parseTime e.published = some t →
       e.media = none →
       handlerEntry env fs addr ch e
         = .error (.panicked "nil pointer dereference".data)) := by
  refine ⟨?_, ?_, ?_, ?_⟩
  · intro d m h1
    simp [handlerChannel, channelFetchParse, h1]
  · intro h
    exact handlerLoop_safe env fs conf.serverAddress conf.feeds h
  · intro ch e h1 h2
    unfold handlerEntry
    rw [h1, h2]
  · intro ch e t h1 h2 h3
    unfold handlerEntry
    rw [h1, h2, h3]

theorem C8_feed_request_witness :
    readFeedGo (envNetDown.net "c1".data) = (none, some "dial tcp: i/o timeout".data)
  ∧ handlerChannel envNetDown [] "addr".data ⟨"n".data, "c1".data, none⟩ = .ok []
  ∧ handlerSafeB envHandlerOk fsCommitted confCommitted.feeds = true
  ∧ (∃ items, feedGetHandler envHandlerOk confCommitted fsCommitted = .ok items)
  ∧ statFs envBadTime.statErr fsCommitted (getAudioFileName "c1".data "v1".data) = .ok
  ∧ envBadTime.parseTime "garbage".data = none
  ∧ handlerEntry envBadTime fsCommitted "addr".data "c1".data
      ⟨"T".data, "v1".data, "garbage".data, some "d".data⟩
      = .error (.fatalExit "parsing time".data)
  ∧ handlerEntry envHandlerOk fsCommitted "addr".data "c1".data
      ⟨"T".data, "v1".data, "2023-01-02T03:04:05Z".data, none⟩
      = .error (.panicked "nil pointer dereference".data) :=
  ⟨rfl,
   (C8_feed_request envNetDown ⟨[], []⟩ [] "addr".data ⟨"n".data, "c1".data, none⟩).1
     none "dial tcp: i/o timeout".data rfl,
   by decide,
   (C8_feed_request envHandlerOk confCommitted fsCommitted []
      ⟨"n".data, "c1".data, none⟩).2.1 (by decide),
   by decide,
   rfl,
   (C8_feed_request envBadTime ⟨[], []⟩ fsCommitted "addr".data
      ⟨[], [], none⟩).2.2.1 "c1".data
     ⟨"T".data, "v1".data, "garbage".data, some "d".data⟩ (by decide) rfl,
   (C8_feed_request envHandlerOk ⟨[], []⟩ fsCommitted "addr".data
      ⟨[], [], none⟩).2.2.2 "c1".data
     ⟨"T".data, "v1".data, "2023-01-02T03:04:05Z".data, none⟩ 1672628645
     (by decide) rfl rfl⟩

